import Mathlib

/-!
# The `pg_class` collector of postgres_exporter

A shallow embedding of `collector/pg_class.go`: the eight metric descriptors,
the nullable columns a row is scanned into, and `PGClassCollector.Update`,
which runs one query and turns every row of the result into eight samples.

The database and the Prometheus client are external to the file.  They are
modelled by what `Update` observes of them:

* the query either fails or yields a cursor; the cursor is the list of the
  outcomes of `rows.Scan`, one per `rows.Next()` that returned `true`, and the
  value of `rows.Err()` once `rows.Next()` has returned `false`;
* the channel is the list of the samples sent on it, oldest first;
* `prometheus.MustNewConstMetric` builds a sample or panics: it validates the
  label values it is given, their number and their UTF-8 encoding.

A Go string is a sequence of bytes and need not be valid UTF-8; what
`rows.Scan` stores in a `sql.NullString` is not validated.
-/

namespace PgClass

/-! ## Double-precision values -/

/-- An IEEE-754 binary64 value, held as its 64-bit pattern: one sign bit, eleven
exponent bits, fifty-two fraction bits. -/
structure Float64 where
  bits : Nat
deriving DecidableEq, Repr

namespace Float64

/-- The literal `0.0`. -/
def zero : Float64 := ⟨0⟩

/-- Sign bit. -/
def sign (x : Float64) : Bool := x.bits / 2 ^ 63 % 2 = 1

/-- Biased exponent field. -/
def exponent (x : Float64) : Nat := x.bits / 2 ^ 52 % 2 ^ 11

/-- Fraction field. -/
def fraction (x : Float64) : Nat := x.bits % 2 ^ 52

/-- The rational number a finite double stands for; `none` for infinities and
NaNs. -/
def toRat? (x : Float64) : Option ℚ :=
  if x.exponent = 2047 then none
  else
    let mag : ℚ :=
      if x.exponent = 0 then (x.fraction : ℚ) * (2 : ℚ) ^ (-1074 : ℤ)
      else ((2 ^ 52 + x.fraction : ℕ) : ℚ) * (2 : ℚ) ^ ((x.exponent : ℤ) - 1075)
    some (if x.sign then -mag else mag)

end Float64

/-- Position of the leading one bit of `a` (zero for `a < 2`); `fuel` bounds the
number of halvings and `a` itself is always enough. -/
def ilog2 : Nat → Nat → Nat
  | 0, _ => 0
  | fuel + 1, a => if a < 2 then 0 else ilog2 fuel (a / 2) + 1

/-- Go's conversion `float64(n)` of an integer: the nearest double, ties to the
even fraction, infinity past the largest finite double. -/
def float64 (n : Int) : Float64 :=
  if n = 0 then Float64.zero
  else
    let a := n.natAbs
    let k := ilog2 a a
    let sign := if n < 0 then 2 ^ 63 else 0
    if 1024 ≤ k then ⟨sign + 2047 * 2 ^ 52⟩
    else if k ≤ 52 then ⟨sign + (1023 + k) * 2 ^ 52 + (a * 2 ^ (52 - k) - 2 ^ 52)⟩
    else
      let q := a / 2 ^ (k - 52)
      let r := a % 2 ^ (k - 52)
      let half := 2 ^ (k - 53)
      let q := if half < r ∨ (r = half ∧ q % 2 = 1) then q + 1 else q
      ⟨sign + (1023 + k) * 2 ^ 52 + (q - 2 ^ 52)⟩

/-! ## Go strings -/

/-- A Go `string`: a sequence of bytes, valid UTF-8 or not. -/
abbrev GoString := List (Fin 256)

/-- The UTF-8 encoding of a code point. -/
def utf8EncodeChar (c : Nat) : GoString :=
  if c < 0x80 then [Fin.ofNat c]
  else if c < 0x800 then [Fin.ofNat (0xC0 + c / 64), Fin.ofNat (0x80 + c % 64)]
  else if c < 0x10000 then
    [Fin.ofNat (0xE0 + c / 4096), Fin.ofNat (0x80 + c / 64 % 64), Fin.ofNat (0x80 + c % 64)]
  else
    [Fin.ofNat (0xF0 + c / 262144), Fin.ofNat (0x80 + c / 4096 % 64),
      Fin.ofNat (0x80 + c / 64 % 64), Fin.ofNat (0x80 + c % 64)]

/-- The bytes of a string literal of the source, which Go stores in UTF-8. -/
def str (s : String) : GoString := s.data.flatMap fun c => utf8EncodeChar c.toNat

/-- State of the UTF-8 scan between two bytes: how many continuation bytes the
current code point still needs and the range the next of them must lie in. -/
structure Utf8State where
  need : Nat
  lo : Nat
  hi : Nat
deriving DecidableEq, Repr

/-- One byte of the scan of `utf8.ValidString`; `none` is a rejected string.  A
leading byte fixes the length of the code point and the range of the first
continuation byte (which excludes overlong forms, surrogates and code points
past U+10FFFF); later continuation bytes lie in 0x80..0xBF. -/
def utf8Step (st : Option Utf8State) (b : Fin 256) : Option Utf8State :=
  match st with
  | none => none
  | some s =>
    if s.need = 0 then
      if b.val < 0x80 then some ⟨0, 0x80, 0xBF⟩
      else if 0xC2 ≤ b.val ∧ b.val ≤ 0xDF then some ⟨1, 0x80, 0xBF⟩
      else if b.val = 0xE0 then some ⟨2, 0xA0, 0xBF⟩
      else if b.val = 0xED then some ⟨2, 0x80, 0x9F⟩
      else if 0xE1 ≤ b.val ∧ b.val ≤ 0xEF then some ⟨2, 0x80, 0xBF⟩
      else if b.val = 0xF0 then some ⟨3, 0x90, 0xBF⟩
      else if 0xF1 ≤ b.val ∧ b.val ≤ 0xF3 then some ⟨3, 0x80, 0xBF⟩
      else if b.val = 0xF4 then some ⟨3, 0x80, 0x8F⟩
      else none
    else if s.lo ≤ b.val ∧ b.val ≤ s.hi then some ⟨s.need - 1, 0x80, 0xBF⟩
    else none

/-- Go's `utf8.ValidString`: the bytes are a sequence of well-formed UTF-8 code
points. -/
def ValidString (s : GoString) : Bool :=
  match s.foldl utf8Step (some ⟨0, 0x80, 0xBF⟩) with
  | some st => st.need = 0
  | none => false

/-! ## `database/sql` nullable columns -/

/-- Go's `error`, kept as its message. -/
structure Error where
  msg : String
deriving DecidableEq, Repr

/-- The `sql.NullString` destination of a scan; `rows.Scan` copies the bytes of
the column without validating them. -/
structure NullString where
  String : GoString
  Valid : Bool
deriving DecidableEq, Repr

/-- The `sql.NullInt32` destination of a scan; `Int32` ranges over
`-2^31 .. 2^31 - 1`. -/
structure NullInt32 where
  Int32 : Int
  Valid : Bool
deriving DecidableEq, Repr

/-- The `sql.NullInt16` destination of a scan; `Int16` ranges over
`-2^15 .. 2^15 - 1`. -/
structure NullInt16 where
  Int16 : Int
  Valid : Bool
deriving DecidableEq, Repr

/-- The `sql.NullFloat64` destination of a scan. -/
structure NullFloat64 where
  Float64 : Float64
  Valid : Bool
deriving DecidableEq, Repr

/-- The eleven destinations `rows.Scan` fills for one row, named as the local
variables of the loop body. -/
structure PGClassRow where
  datname : NullString
  schemaname : NullString
  relname : NullString
  relfrozenxid : NullInt32
  relfrozenxidAge : NullInt32
  relminmxid : NullInt32
  relminmxidAge : NullInt32
  relpages : NullInt32
  reltuples : NullFloat64
  relnatts : NullInt16
  relallvisible : NullInt32
deriving DecidableEq, Repr

/-- The machine-integer ranges of a scanned row: what the Go types of the
destinations guarantee. -/
def PGClassRow.InRange (r : PGClassRow) : Prop :=
  (-(2 : Int) ^ 31 ≤ r.relfrozenxid.Int32 ∧ r.relfrozenxid.Int32 < 2 ^ 31) ∧
  (-(2 : Int) ^ 31 ≤ r.relfrozenxidAge.Int32 ∧ r.relfrozenxidAge.Int32 < 2 ^ 31) ∧
  (-(2 : Int) ^ 31 ≤ r.relminmxid.Int32 ∧ r.relminmxid.Int32 < 2 ^ 31) ∧
  (-(2 : Int) ^ 31 ≤ r.relminmxidAge.Int32 ∧ r.relminmxidAge.Int32 < 2 ^ 31) ∧
  (-(2 : Int) ^ 31 ≤ r.relpages.Int32 ∧ r.relpages.Int32 < 2 ^ 31) ∧
  (-(2 : Int) ^ 15 ≤ r.relnatts.Int16 ∧ r.relnatts.Int16 < 2 ^ 15) ∧
  (-(2 : Int) ^ 31 ≤ r.relallvisible.Int32 ∧ r.relallvisible.Int32 < 2 ^ 31)

instance (r : PGClassRow) : Decidable r.InRange := by
  unfold PGClassRow.InRange; infer_instance

/-- The row cursor `*sql.Rows` as `Update` sees it. -/
structure Rows where
  /-- One entry per `rows.Next()` that returned `true`: what `rows.Scan` did. -/
  scans : List (Except Error PGClassRow)
  /-- The value of `rows.Err()` after `rows.Next()` returned `false`. -/
  err : Option Error

/-- The handle `*sql.DB`: `QueryContext` maps the query text to an error or a
cursor (a cancelled context shows as an error). -/
structure DB where
  QueryContext : String → Except Error Rows

/-- The collector's `instance`: it holds the database handle. -/
structure Instance where
  db : DB

/-- The accessor `getDB`. -/
def Instance.getDB (i : Instance) : DB := i.db

/-! ## The Prometheus client -/

/-- Sample kinds of `prometheus.ValueType`. -/
inductive ValueType where
  | CounterValue
  | GaugeValue
  | UntypedValue
deriving DecidableEq, Repr

/-- A descriptor `prometheus.Desc`: name, help text, ordered label names. -/
structure Desc where
  fqName : String
  help : String
  variableLabels : List String
deriving DecidableEq, Repr

/-- The sample a `MustNewConstMetric` call builds. -/
structure Metric where
  desc : Desc
  valType : ValueType
  val : Float64
  labelValues : List GoString
deriving DecidableEq, Repr

/-- The errors of the label validation of the client, with which
`MustNewConstMetric` panics. -/
inductive LabelError where
  | inconsistentCardinality
  | invalidUTF8 (val : GoString)
deriving DecidableEq, Repr

/-- The name builder `prometheus.BuildFQName`: the non-empty parts joined by
underscores, nothing when the name is empty. -/
def BuildFQName (nspace subsystem name : String) : String :=
  if name = "" then ""
  else
    (if nspace = "" then "" else nspace ++ "_") ++
      (if subsystem = "" then "" else subsystem ++ "_") ++ name

/-- The constructor `prometheus.NewDesc` with no constant labels. -/
def NewDesc (fqName help : String) (variableLabels : List String) : Desc :=
  ⟨fqName, help, variableLabels⟩

/-- The client's `validateLabelValues`: the number of values must be the
expected one, then every value must be valid UTF-8; `none` is a `nil` error. -/
def validateLabelValues (vals : List GoString) (expectedNumberOfValues : Nat) :
    Option LabelError :=
  if vals.length ≠ expectedNumberOfValues then some LabelError.inconsistentCardinality
  else
    match vals.find? fun val => !ValidString val with
    | some val => some (LabelError.invalidUTF8 val)
    | none => none

/-- The constructor `prometheus.MustNewConstMetric`: it panics with the error of
`validateLabelValues` against the label names of the descriptor, and builds the
sample otherwise.  (The error a descriptor can carry from `NewDesc` is settled
when the package variables are initialised, before any `Update`; the three kinds
of `ValueType` are all accepted.) -/
def MustNewConstMetric (desc : Desc) (valueType : ValueType) (value : Float64)
    (labelValues : List GoString) : Except LabelError Metric :=
  match validateLabelValues labelValues desc.variableLabels.length with
  | some err => Except.error err
  | none => Except.ok ⟨desc, valueType, value, labelValues⟩

/-! ## The collector -/

/-- The constant `classSubsystem`. -/
def classSubsystem : String := "class"

/-- Descriptor `classRelFrozenXid`; `ns` is the package constant `namespace`,
declared outside this file. -/
def classRelFrozenXid (ns : String) : Desc :=
  NewDesc (BuildFQName ns classSubsystem "relfrozenxid")
    "All txids before this have been frozen on the table"
    ["datname", "schemaname", "relname"]

/-- Descriptor `classRelFrozenXidAge`. -/
def classRelFrozenXidAge (ns : String) : Desc :=
  NewDesc (BuildFQName ns classSubsystem "relfrozenxid_age")
    "The age of this table in vacuum cycles computed as age(relfrozenxid)"
    ["datname", "schemaname", "relname"]

/-- Descriptor `classRelMinMxid`. -/
def classRelMinMxid (ns : String) : Desc :=
  NewDesc (BuildFQName ns classSubsystem "relminmxid")
    "All mxids before this one have been replaced by a transaction ID on the table"
    ["datname", "schemaname", "relname"]

/-- Descriptor `classRelMinMxidAge`. -/
def classRelMinMxidAge (ns : String) : Desc :=
  NewDesc (BuildFQName ns classSubsystem "relminmxid_age")
    "The age of this table in vacuum cycles computed as age(relminmxid)"
    ["datname", "schemaname", "relname"]

/-- Descriptor `classRelPages`. -/
def classRelPages (ns : String) : Desc :=
  NewDesc (BuildFQName ns classSubsystem "relpages")
    "Size of the on-disk representation of this table in pages"
    ["datname", "schemaname", "relname"]

/-- Descriptor `classRelTuples`. -/
def classRelTuples (ns : String) : Desc :=
  NewDesc (BuildFQName ns classSubsystem "reltuples")
    "Number of live rows in the table. This is only an estimate used by the planner."
    ["datname", "schemaname", "relname"]

/-- Descriptor `classRelNatts`. -/
def classRelNatts (ns : String) : Desc :=
  NewDesc (BuildFQName ns classSubsystem "relnatts")
    "Number of user columns in the relation"
    ["datname", "schemaname", "relname"]

/-- Descriptor `classRelAllVisible`. -/
def classRelAllVisible (ns : String) : Desc :=
  NewDesc (BuildFQName ns classSubsystem "relallvisible")
    "Number of pages that are marked all-visible in the table's visibility map. This is only an estimate used by the planner."
    ["datname", "schemaname", "relname"]

/-- The query text `pgClassQuery`. -/
def pgClassQuery : String :=
  "SELECT\n\t\tcurrent_database() AS datname,\n\t\tstat.schemaname,\n\t\tstat.relname,\n" ++
  "\t\tcls.relfrozenxid,\n\t\tage(cls.relfrozenxid) AS relfrozenxid_age,\n" ++
  "\t\tcls.relminmxid,\n\t\tmxid_age(cls.relminmxid) AS relminmxid_age,\n" ++
  "\t\tcls.relpages,\n\t\tcls.reltuples,\n\t\tcls.relnatts,\n\t\tcls.relallvisible\n" ++
  "\tFROM\n\t\tpg_stat_user_tables AS stat\n\tLEFT JOIN\n\t\tpg_class AS cls ON stat.relid = cls.oid\n" ++
  "\tORDER BY cls.relpages DESC\n\tLIMIT 100;"

/-- How a call of `Update` ends: it returns its error result (`none` is `nil`),
or a `MustNewConstMetric` call panics; `Update` recovers from no panic. -/
inductive Outcome where
  | returned (err : Option Error)
  | panicked (cause : LabelError)
deriving DecidableEq, Repr

/-- How one pass through the loop body ends, with the channel as it then is. -/
inductive Step where
  | next (ch : List Metric)
  | panic (cause : LabelError) (ch : List Metric)
deriving DecidableEq, Repr

/-- The statement `ch <- prometheus.MustNewConstMetric(...)` followed by the rest
`k` of the body: a panic stops the body before anything is sent. -/
def send (ch : List Metric) (m : Except LabelError Metric) (k : List Metric → Step) : Step :=
  match m with
  | Except.error cause => Step.panic cause ch
  | Except.ok m => k (ch ++ [m])

/-- The body of the loop of `Update` after a successful `rows.Scan`: three label
defaults, then eight times a value default and a send. -/
def updateRow (ns : String) (r : PGClassRow) (ch : List Metric) : Step :=
  let datnameLabel := if r.datname.Valid then r.datname.String else str "unknown"
  let schemanameLabel := if r.schemaname.Valid then r.schemaname.String else str "unknown"
  let relnameLabel := if r.relname.Valid then r.relname.String else str "unknown"
  let relfrozenxidMetric :=
    if r.relfrozenxid.Valid then float64 r.relfrozenxid.Int32 else Float64.zero
  send ch (MustNewConstMetric (classRelFrozenXid ns) ValueType.CounterValue
    relfrozenxidMetric [datnameLabel, schemanameLabel, relnameLabel]) fun ch =>
  let relfrozenxidAgeMetric :=
    if r.relfrozenxidAge.Valid then float64 r.relfrozenxidAge.Int32 else Float64.zero
  send ch (MustNewConstMetric (classRelFrozenXidAge ns) ValueType.GaugeValue
    relfrozenxidAgeMetric [datnameLabel, schemanameLabel, relnameLabel]) fun ch =>
  let relminmxidMetric :=
    if r.relminmxid.Valid then float64 r.relminmxid.Int32 else Float64.zero
  send ch (MustNewConstMetric (classRelMinMxid ns) ValueType.CounterValue
    relminmxidMetric [datnameLabel, schemanameLabel, relnameLabel]) fun ch =>
  let relminmxidAgeMetric :=
    if r.relminmxidAge.Valid then float64 r.relminmxidAge.Int32 else Float64.zero
  send ch (MustNewConstMetric (classRelMinMxidAge ns) ValueType.GaugeValue
    relminmxidAgeMetric [datnameLabel, schemanameLabel, relnameLabel]) fun ch =>
  let relpagesMetric :=
    if r.relpages.Valid then float64 r.relpages.Int32 else Float64.zero
  send ch (MustNewConstMetric (classRelPages ns) ValueType.GaugeValue
    relpagesMetric [datnameLabel, schemanameLabel, relnameLabel]) fun ch =>
  let reltuplesMetric :=
    if r.reltuples.Valid then r.reltuples.Float64 else Float64.zero
  send ch (MustNewConstMetric (classRelTuples ns) ValueType.GaugeValue
    reltuplesMetric [datnameLabel, schemanameLabel, relnameLabel]) fun ch =>
  let relnattsMetric :=
    if r.relnatts.Valid then float64 r.relnatts.Int16 else Float64.zero
  send ch (MustNewConstMetric (classRelNatts ns) ValueType.GaugeValue
    relnattsMetric [datnameLabel, schemanameLabel, relnameLabel]) fun ch =>
  let relallvisibleMetric :=
    if r.relallvisible.Valid then float64 r.relallvisible.Int32 else Float64.zero
  send ch (MustNewConstMetric (classRelAllVisible ns) ValueType.GaugeValue
    relallvisibleMetric [datnameLabel, schemanameLabel, relnameLabel]) fun ch =>
  Step.next ch

/-- The loop of `Update` over the cursor, and the check of `rows.Err()` after it;
the result is the channel and how the call ended. -/
def updateLoop (ns : String) :
    List (Except Error PGClassRow) → Option Error → List Metric → List Metric × Outcome
  | [], err, ch => (ch, Outcome.returned err)
  | Except.error e :: _, _, ch => (ch, Outcome.returned (some e))
  | Except.ok r :: rest, err, ch =>
    match updateRow ns r ch with
    | Step.panic cause ch => (ch, Outcome.panicked cause)
    | Step.next ch => updateLoop ns rest err ch

/-- The collector `PGClassCollector`; its logger plays no part in `Update`. -/
structure PGClassCollector where
  log : Unit

/-- The method `PGClassCollector.Update`: `ch` is the channel before the call,
the result is the channel after it and how the call ended. -/
def PGClassCollector.Update (_c : PGClassCollector) (ns : String) (inst : Instance)
    (ch : List Metric) : List Metric × Outcome :=
  let query := pgClassQuery
  let db := inst.getDB
  match db.QueryContext query with
  | Except.error err => (ch, Outcome.returned (some err))
  | Except.ok rows => updateLoop ns rows.scans rows.err ch

/-! ## Vocabulary of the specification -/

/-- The eight statistics of a row, in the order of the specification. -/
inductive Stat where
  | relfrozenxid
  | relfrozenxidAge
  | relminmxid
  | relminmxidAge
  | relpages
  | reltuples
  | relnatts
  | relallvisible
deriving DecidableEq, Repr

namespace Stat

/-- Rank of a statistic in the fixed order, from zero. -/
def index : Stat → Nat
  | relfrozenxid => 0
  | relfrozenxidAge => 1
  | relminmxid => 2
  | relminmxidAge => 3
  | relpages => 4
  | reltuples => 5
  | relnatts => 6
  | relallvisible => 7

/-- The descriptor declared for a statistic. -/
def desc (ns : String) : Stat → Desc
  | relfrozenxid => classRelFrozenXid ns
  | relfrozenxidAge => classRelFrozenXidAge ns
  | relminmxid => classRelMinMxid ns
  | relminmxidAge => classRelMinMxidAge ns
  | relpages => classRelPages ns
  | reltuples => classRelTuples ns
  | relnatts => classRelNatts ns
  | relallvisible => classRelAllVisible ns

/-- The kind the specification gives a statistic: the two markers are counters,
the other six gauges. -/
def kind : Stat → ValueType
  | relfrozenxid => ValueType.CounterValue
  | relminmxid => ValueType.CounterValue
  | _ => ValueType.GaugeValue

/-- The integer a statistic column holds: `none` when the column is NULL, and
for `reltuples`, which is not an integer column. -/
def intColumn (r : PGClassRow) : Stat → Option Int
  | relfrozenxid => if r.relfrozenxid.Valid then some r.relfrozenxid.Int32 else none
  | relfrozenxidAge => if r.relfrozenxidAge.Valid then some r.relfrozenxidAge.Int32 else none
  | relminmxid => if r.relminmxid.Valid then some r.relminmxid.Int32 else none
  | relminmxidAge => if r.relminmxidAge.Valid then some r.relminmxidAge.Int32 else none
  | relpages => if r.relpages.Valid then some r.relpages.Int32 else none
  | reltuples => none
  | relnatts => if r.relnatts.Valid then some r.relnatts.Int16 else none
  | relallvisible => if r.relallvisible.Valid then some r.relallvisible.Int32 else none

/-- The value a statistic column holds, as a double: `none` when the column is
NULL. -/
def column (r : PGClassRow) : Stat → Option Float64
  | reltuples => if r.reltuples.Valid then some r.reltuples.Float64 else none
  | s => (s.intColumn r).map float64

end Stat

/-- The label the specification derives from an identifying column: the literal
"unknown" for an absent column, the column's string for a present one. -/
def IsLabelOf (c : NullString) (v : GoString) : Prop :=
  (c.Valid = false → v = str "unknown") ∧ (c.Valid = true → v = c.String)

/-- The three label values the loop body derives from a row. -/
def rowLabels (r : PGClassRow) : List GoString :=
  [ if r.datname.Valid then r.datname.String else str "unknown",
    if r.schemaname.Valid then r.schemaname.String else str "unknown",
    if r.relname.Valid then r.relname.String else str "unknown" ]

/-- Every present identifying column of the row holds valid UTF-8. -/
def PGClassRow.LabelsValid (r : PGClassRow) : Prop :=
  (r.datname.Valid = true → ValidString r.datname.String = true) ∧
  (r.schemaname.Valid = true → ValidString r.schemaname.String = true) ∧
  (r.relname.Valid = true → ValidString r.relname.String = true)

instance (r : PGClassRow) : Decidable r.LabelsValid := by
  unfold PGClassRow.LabelsValid; infer_instance

/-- All eleven columns of the row are present. -/
def PGClassRow.AllPresent (r : PGClassRow) : Prop :=
  r.datname.Valid = true ∧ r.schemaname.Valid = true ∧ r.relname.Valid = true ∧
  r.relfrozenxid.Valid = true ∧ r.relfrozenxidAge.Valid = true ∧
  r.relminmxid.Valid = true ∧ r.relminmxidAge.Valid = true ∧ r.relpages.Valid = true ∧
  r.reltuples.Valid = true ∧ r.relnatts.Valid = true ∧ r.relallvisible.Valid = true

instance (r : PGClassRow) : Decidable r.AllPresent := by
  unfold PGClassRow.AllPresent; infer_instance

/-- What the specification expects of a row whose columns are all present:
eight samples in the fixed order, each with the column's value and the row's
(datname, schemaname, relname). -/
def expectedSamples (ns : String) (r : PGClassRow) : List Metric :=
  let labels := [r.datname.String, r.schemaname.String, r.relname.String]
  [ ⟨classRelFrozenXid ns, ValueType.CounterValue, float64 r.relfrozenxid.Int32, labels⟩,
    ⟨classRelFrozenXidAge ns, ValueType.GaugeValue, float64 r.relfrozenxidAge.Int32, labels⟩,
    ⟨classRelMinMxid ns, ValueType.CounterValue, float64 r.relminmxid.Int32, labels⟩,
    ⟨classRelMinMxidAge ns, ValueType.GaugeValue, float64 r.relminmxidAge.Int32, labels⟩,
    ⟨classRelPages ns, ValueType.GaugeValue, float64 r.relpages.Int32, labels⟩,
    ⟨classRelTuples ns, ValueType.GaugeValue, r.reltuples.Float64, labels⟩,
    ⟨classRelNatts ns, ValueType.GaugeValue, float64 r.relnatts.Int16, labels⟩,
    ⟨classRelAllVisible ns, ValueType.GaugeValue, float64 r.relallvisible.Int32, labels⟩ ]

/-- The eight samples the loop body sends for a row whose labels pass the
validation, in closed form. -/
def rowMetrics (ns : String) (r : PGClassRow) : List Metric :=
  let labels := rowLabels r
  [ ⟨classRelFrozenXid ns, ValueType.CounterValue,
      if r.relfrozenxid.Valid then float64 r.relfrozenxid.Int32 else Float64.zero, labels⟩,
    ⟨classRelFrozenXidAge ns, ValueType.GaugeValue,
      if r.relfrozenxidAge.Valid then float64 r.relfrozenxidAge.Int32 else Float64.zero, labels⟩,
    ⟨classRelMinMxid ns, ValueType.CounterValue,
      if r.relminmxid.Valid then float64 r.relminmxid.Int32 else Float64.zero, labels⟩,
    ⟨classRelMinMxidAge ns, ValueType.GaugeValue,
      if r.relminmxidAge.Valid then float64 r.relminmxidAge.Int32 else Float64.zero, labels⟩,
    ⟨classRelPages ns, ValueType.GaugeValue,
      if r.relpages.Valid then float64 r.relpages.Int32 else Float64.zero, labels⟩,
    ⟨classRelTuples ns, ValueType.GaugeValue,
      if r.reltuples.Valid then r.reltuples.Float64 else Float64.zero, labels⟩,
    ⟨classRelNatts ns, ValueType.GaugeValue,
      if r.relnatts.Valid then float64 r.relnatts.Int16 else Float64.zero, labels⟩,
    ⟨classRelAllVisible ns, ValueType.GaugeValue,
      if r.relallvisible.Valid then float64 r.relallvisible.Int32 else Float64.zero, labels⟩ ]

/-- A database whose every query yields the cursor `rows`. -/
def Instance.answering (rows : Rows) : Instance := ⟨⟨fun _ => Except.ok rows⟩⟩

/-- A database whose every query fails with `e`. -/
def Instance.failing (e : Error) : Instance := ⟨⟨fun _ => Except.error e⟩⟩

/-! ## Concrete rows -/

/-- The row of `TestPGClassCollector`:
("postgres", "public", "table", 1000, 1, 2000, 2, 5, 100, 17, 3); the bit pattern
of `reltuples` is the double 100.0. -/
def testRow : PGClassRow where
  datname := ⟨str "postgres", true⟩
  schemaname := ⟨str "public", true⟩
  relname := ⟨str "table", true⟩
  relfrozenxid := ⟨1000, true⟩
  relfrozenxidAge := ⟨1, true⟩
  relminmxid := ⟨2000, true⟩
  relminmxidAge := ⟨2, true⟩
  relpages := ⟨5, true⟩
  reltuples := ⟨⟨0x4059000000000000⟩, true⟩
  relnatts := ⟨17, true⟩
  relallvisible := ⟨3, true⟩

/-- The test row with its relation name and its page count absent (a NULL leaves
the zero value in the destination). -/
def nullRow : PGClassRow :=
  { testRow with relname := ⟨[], false⟩, relpages := ⟨0, false⟩ }

/-- The test row with a present but empty database name. -/
def blankRow : PGClassRow :=
  { testRow with datname := ⟨[], true⟩ }

/-- The test row with a relation name that is not valid UTF-8: the letter t and
the byte 0xff. -/
def badRow : PGClassRow :=
  { testRow with relname := ⟨[0x74, 0xff], true⟩ }

/-- The row `badRow` with its page count absent. -/
def badNullRow : PGClassRow :=
  { badRow with relpages := ⟨0, false⟩ }

/-- A collector value. -/
def collector : PGClassCollector := ⟨()⟩

/-! ## Widening of integers -/

theorem ilog2_spec (fuel : Nat) : ∀ a : Nat, 0 < a → a ≤ fuel →
    2 ^ ilog2 fuel a ≤ a ∧ a < 2 ^ (ilog2 fuel a + 1) := by
  induction fuel with
  | zero => intro a h0 h1; omega
  | succ f ih =>
    intro a h0 h1
    unfold ilog2
    by_cases h : a < 2
    · simp only [h, if_true]; constructor <;> simp <;> omega
    · simp only [h, if_false]
      have h2 := ih (a / 2) (by omega) (by omega)
      constructor
      · rw [pow_succ]; omega
      · rw [pow_succ]; omega

theorem float64_bits_small (n : Int) (hn : n ≠ 0) (hb : n.natAbs < 2 ^ 53) :
    ∃ k x : Nat, k ≤ 52 ∧ 2 ^ 52 ≤ x ∧ x < 2 ^ 53 ∧ x = n.natAbs * 2 ^ (52 - k) ∧
      float64 n = ⟨(if n < 0 then 2 ^ 63 else 0) + (1023 + k) * 2 ^ 52 + (x - 2 ^ 52)⟩ := by
  have ha : 0 < n.natAbs := Int.natAbs_pos.mpr hn
  obtain ⟨h1, h2⟩ := ilog2_spec n.natAbs n.natAbs ha le_rfl
  have hk : ilog2 n.natAbs n.natAbs ≤ 52 := by
    by_contra hc
    have : 2 ^ 53 ≤ 2 ^ ilog2 n.natAbs n.natAbs := Nat.pow_le_pow_right (by norm_num) (by omega)
    omega
  refine ⟨ilog2 n.natAbs n.natAbs, n.natAbs * 2 ^ (52 - ilog2 n.natAbs n.natAbs), hk, ?_, ?_, rfl, ?_⟩
  · calc 2 ^ 52 = 2 ^ ilog2 n.natAbs n.natAbs * 2 ^ (52 - ilog2 n.natAbs n.natAbs) := by
          rw [← pow_add]; congr 1; omega
      _ ≤ _ := Nat.mul_le_mul_right _ h1
  · calc n.natAbs * 2 ^ (52 - ilog2 n.natAbs n.natAbs)
        < 2 ^ (ilog2 n.natAbs n.natAbs + 1) * 2 ^ (52 - ilog2 n.natAbs n.natAbs) :=
          Nat.mul_lt_mul_of_pos_right h2 (by positivity)
      _ = 2 ^ 53 := by rw [← pow_add]; congr 1; omega
  · unfold float64
    simp only [hn, if_false]
    have : ¬ 1024 ≤ ilog2 n.natAbs n.natAbs := by omega
    simp only [this, if_false, hk, if_true]

theorem float64_fields (neg : Bool) (k x : Nat) (hk : k ≤ 52) (hx1 : 2 ^ 52 ≤ x)
    (hx2 : x < 2 ^ 53) :
    let b : Float64 := ⟨(if neg then 2 ^ 63 else 0) + (1023 + k) * 2 ^ 52 + (x - 2 ^ 52)⟩
    b.exponent = 1023 + k ∧ b.fraction = x - 2 ^ 52 ∧ b.sign = neg := by
  intro b
  simp only [b, Float64.exponent, Float64.fraction, Float64.sign]
  cases neg
  · simp only [Bool.false_eq_true, if_false]
    refine ⟨by omega, by omega, ?_⟩
    simp only [decide_eq_false_iff_not]
    omega
  · simp only [if_true]
    refine ⟨by omega, by omega, ?_⟩
    simp only [decide_eq_true_eq]
    omega

theorem float64_toRat (n : Int) (hb : n.natAbs < 2 ^ 53) :
    (float64 n).toRat? = some (n : ℚ) := by
  by_cases hn : n = 0
  · subst hn
    simp [float64, Float64.zero, Float64.toRat?, Float64.exponent, Float64.fraction,
      Float64.sign]
  obtain ⟨k, x, hk, hx1, hx2, hx, hf⟩ := float64_bits_small n hn hb
  have hf2 : float64 n =
      ⟨(if decide (n < 0) then 2 ^ 63 else 0) + (1023 + k) * 2 ^ 52 + (x - 2 ^ 52)⟩ := by
    rw [hf]; simp
  obtain ⟨he, hfr, hsg⟩ := float64_fields (decide (n < 0)) k x hk hx1 hx2
  rw [hf2]
  unfold Float64.toRat?
  rw [he, hfr, hsg]
  have h1 : ¬ (1023 + k = 2047) := by omega
  have h2 : ¬ (1023 + k = 0) := by omega
  simp only [h1, h2, if_false]
  have h3 : 2 ^ 52 + (x - 2 ^ 52) = n.natAbs * 2 ^ (52 - k) := by omega
  rw [h3]
  have h4 : ((n.natAbs * 2 ^ (52 - k) : ℕ) : ℚ) * (2 : ℚ) ^ (((1023 + k : ℕ) : ℤ) - 1075)
      = (n.natAbs : ℚ) := by
    push_cast
    rw [mul_assoc, ← zpow_natCast, ← zpow_add₀ (by norm_num : (2 : ℚ) ≠ 0)]
    have : ((52 - k : ℕ) : ℤ) + (1023 + (k : ℤ) - 1075) = 0 := by omega
    rw [this]; simp
  rw [h4]
  refine congrArg some ?_
  by_cases hneg : n < 0
  · simp only [hneg, decide_True, if_true]
    have hz : -(n.natAbs : ℤ) = n := by omega
    exact_mod_cast hz
  · simp only [hneg, decide_False, Bool.false_eq_true, if_false]
    have hz : (n.natAbs : ℤ) = n := by omega
    have hq : ((n.natAbs : ℤ) : ℚ) = (n : ℚ) := by rw [hz]
    rw [Int.cast_natCast] at hq
    exact hq

theorem float64_injective (n m : Int) (hn : n.natAbs < 2 ^ 53) (hm : m.natAbs < 2 ^ 53)
    (h : float64 n = float64 m) : n = m := by
  have h1 := float64_toRat n hn
  have h2 := float64_toRat m hm
  rw [h, h2] at h1
  exact_mod_cast (Option.some.inj h1).symm

/-! ## The loop in closed form -/

theorem validString_unknown : ValidString (str "unknown") = true := by decide

theorem find_rowLabels (r : PGClassRow) :
    (r.LabelsValid ∧ (rowLabels r).find? (fun val => !ValidString val) = none) ∨
    (¬ r.LabelsValid ∧ ∃ v, (rowLabels r).find? (fun val => !ValidString val) = some v) := by
  by_cases h : r.LabelsValid
  · left
    refine ⟨h, ?_⟩
    obtain ⟨h1, h2, h3⟩ := h
    rw [List.find?_eq_none]
    intro v hv
    simp only [rowLabels, List.mem_cons, List.mem_singleton, List.not_mem_nil, or_false] at hv
    rcases hv with hv | hv | hv <;> subst hv
    · cases hd : r.datname.Valid
      · simp [validString_unknown]
      · simp [h1 hd]
    · cases hd : r.schemaname.Valid
      · simp [validString_unknown]
      · simp [h2 hd]
    · cases hd : r.relname.Valid
      · simp [validString_unknown]
      · simp [h3 hd]
  · right
    refine ⟨h, ?_⟩
    cases hf : (rowLabels r).find? (fun val => !ValidString val) with
    | some v => exact ⟨v, rfl⟩
    | none =>
      exfalso
      apply h
      rw [List.find?_eq_none] at hf
      have a1 := hf _ (List.mem_cons_self _ _)
      have a2 := hf _ (List.mem_cons_of_mem _ (List.mem_cons_self _ _))
      have a3 := hf _ (List.mem_cons_of_mem _ (List.mem_cons_of_mem _ (List.mem_cons_self _ _)))
      refine ⟨fun hd => ?_, fun hd => ?_, fun hd => ?_⟩
      · simpa [hd] using a1
      · simpa [hd] using a2
      · simpa [hd] using a3

theorem MustNewConstMetric_class (d : Desc) (vt : ValueType) (v : Float64) (r : PGClassRow)
    (hd : d.variableLabels.length = 3) :
    MustNewConstMetric d vt v (rowLabels r) =
      match (rowLabels r).find? (fun val => !ValidString val) with
      | some val => Except.error (LabelError.invalidUTF8 val)
      | none => Except.ok ⟨d, vt, v, rowLabels r⟩ := by
  have hl : (rowLabels r).length = 3 := rfl
  unfold MustNewConstMetric validateLabelValues
  rw [hd, hl]
  simp only [ne_eq, not_true_eq_false, if_false]
  cases (rowLabels r).find? (fun val => !ValidString val) <;> rfl

theorem updateRow_unfold (ns : String) (r : PGClassRow) (ch : List Metric) :
    updateRow ns r ch =
      match (rowLabels r).find? (fun val => !ValidString val) with
      | some val => Step.panic (LabelError.invalidUTF8 val) ch
      | none => Step.next (ch ++ rowMetrics ns r) := by
  have e : ∀ (d : Desc) (vt : ValueType) (v : Float64), d.variableLabels.length = 3 →
      MustNewConstMetric d vt v
        [ if r.datname.Valid then r.datname.String else str "unknown",
          if r.schemaname.Valid then r.schemaname.String else str "unknown",
          if r.relname.Valid then r.relname.String else str "unknown" ] =
      match (rowLabels r).find? (fun val => !ValidString val) with
      | some val => Except.error (LabelError.invalidUTF8 val)
      | none => Except.ok ⟨d, vt, v, rowLabels r⟩ :=
    fun d vt v hd => MustNewConstMetric_class d vt v r hd
  unfold updateRow
  simp only [e _ _ _ (rfl : (classRelFrozenXid ns).variableLabels.length = 3),
    e _ _ _ (rfl : (classRelFrozenXidAge ns).variableLabels.length = 3),
    e _ _ _ (rfl : (classRelMinMxid ns).variableLabels.length = 3),
    e _ _ _ (rfl : (classRelMinMxidAge ns).variableLabels.length = 3),
    e _ _ _ (rfl : (classRelPages ns).variableLabels.length = 3),
    e _ _ _ (rfl : (classRelTuples ns).variableLabels.length = 3),
    e _ _ _ (rfl : (classRelNatts ns).variableLabels.length = 3),
    e _ _ _ (rfl : (classRelAllVisible ns).variableLabels.length = 3)]
  cases (rowLabels r).find? (fun val => !ValidString val) with
  | some val => rfl
  | none => simp [send, rowMetrics]

theorem updateRow_eq (ns : String) (r : PGClassRow) (ch : List Metric) (h : r.LabelsValid) :
    updateRow ns r ch = Step.next (ch ++ rowMetrics ns r) := by
  rw [updateRow_unfold]
  rcases find_rowLabels r with ⟨_, hf⟩ | ⟨hn, _⟩
  · rw [hf]
  · exact absurd h hn

theorem updateRow_panic (ns : String) (r : PGClassRow) (ch : List Metric)
    (h : ¬ r.LabelsValid) :
    ∃ v, updateRow ns r ch = Step.panic (LabelError.invalidUTF8 v) ch := by
  rw [updateRow_unfold]
  rcases find_rowLabels r with ⟨hv, _⟩ | ⟨_, v, hf⟩
  · exact absurd hv h
  · exact ⟨v, by rw [hf]⟩

theorem rowMetrics_length (ns : String) (r : PGClassRow) : (rowMetrics ns r).length = 8 := rfl

theorem flatMap_rowMetrics_length (ns : String) (rows : List PGClassRow) :
    (rows.flatMap (rowMetrics ns)).length = 8 * rows.length := by
  induction rows with
  | nil => rfl
  | cons r rest ih =>
    rw [List.flatMap_cons, List.length_append, ih, rowMetrics_length, List.length_cons]
    omega

theorem updateLoop_ok_append (ns : String) (pre : List PGClassRow)
    (rest : List (Except Error PGClassRow)) (err : Option Error)
    (hv : ∀ x ∈ pre, x.LabelsValid) :
    ∀ ch : List Metric, updateLoop ns (pre.map Except.ok ++ rest) err ch =
      updateLoop ns rest err (ch ++ pre.flatMap (rowMetrics ns)) := by
  induction pre with
  | nil => intro ch; simp
  | cons r pre ih =>
    intro ch
    rw [List.map_cons, List.cons_append, List.flatMap_cons]
    simp only [updateLoop, updateRow_eq ns r _ (hv r (List.mem_cons_self _ _))]
    rw [← List.append_assoc]
    exact ih (fun x hx => hv x (List.mem_cons_of_mem _ hx)) (ch ++ rowMetrics ns r)

theorem updateLoop_fst (ns : String) (err : Option Error) :
    ∀ (items : List (Except Error PGClassRow)) (ch : List Metric),
      (updateLoop ns items err ch).1 = ch ++ (updateLoop ns items err []).1 := by
  intro items
  induction items with
  | nil => intro ch; simp [updateLoop]
  | cons x items ih =>
    intro ch
    cases x with
    | error e => simp [updateLoop]
    | ok r =>
      by_cases h : r.LabelsValid
      · simp only [updateLoop, updateRow_eq ns r _ h]
        rw [ih (ch ++ rowMetrics ns r), ih ([] ++ rowMetrics ns r)]
        simp
      · obtain ⟨v, hp⟩ := updateRow_panic ns r ch h
        obtain ⟨w, hq⟩ := updateRow_panic ns r [] h
        simp [updateLoop, hp, hq]

theorem updateLoop_panic_cause (ns : String) (err : Option Error) :
    ∀ (items : List (Except Error PGClassRow)) (ch : List Metric) (cause : LabelError),
      (updateLoop ns items err ch).2 = Outcome.panicked cause →
      ∃ v, cause = LabelError.invalidUTF8 v ∧ ValidString v = false := by
  intro items
  induction items with
  | nil => intro ch cause h; simp [updateLoop] at h
  | cons x items ih =>
    intro ch cause h
    cases x with
    | error e => simp [updateLoop] at h
    | ok r =>
      rw [updateLoop, updateRow_unfold] at h
      cases hf : (rowLabels r).find? (fun val => !ValidString val) with
      | some v =>
        rw [hf] at h
        simp only [Outcome.panicked.injEq] at h
        have := List.find?_some hf
        exact ⟨v, h.symm, by simpa using this⟩
      | none =>
        rw [hf] at h
        exact ih _ cause h

theorem updateLoop_sent (ns : String) (err : Option Error) :
    ∀ (items : List (Except Error PGClassRow)) (ch : List Metric),
      ∃ rows : List PGClassRow, (∀ x ∈ rows, x.LabelsValid) ∧
        (updateLoop ns items err ch).1 = ch ++ rows.flatMap (rowMetrics ns) := by
  intro items
  induction items with
  | nil => intro ch; exact ⟨[], by simp, by simp [updateLoop]⟩
  | cons x items ih =>
    intro ch
    cases x with
    | error e => exact ⟨[], by simp, by simp [updateLoop]⟩
    | ok r =>
      by_cases h : r.LabelsValid
      · obtain ⟨rows, hr, hs⟩ := ih (ch ++ rowMetrics ns r)
        refine ⟨r :: rows, ?_, ?_⟩
        · intro x hx
          rcases List.mem_cons.mp hx with rfl | hx
          · exact h
          · exact hr x hx
        · simp only [updateLoop, updateRow_eq ns r _ h, hs, List.flatMap_cons,
            List.append_assoc]
      · obtain ⟨v, hp⟩ := updateRow_panic ns r ch h
        exact ⟨[], by simp, by simp [updateLoop, hp]⟩

theorem updateLoop_stuck (ns : String) (rest : List (Except Error PGClassRow))
    (err : Option Error) :
    ∀ (pre : List PGClassRow) (ch : List Metric), (¬ ∀ x ∈ pre, x.LabelsValid) →
      (updateLoop ns (pre.map Except.ok ++ rest) err ch).1.length <
        ch.length + 8 * pre.length := by
  intro pre
  induction pre with
  | nil => intro ch h; exact absurd (by simp) h
  | cons r pre ih =>
    intro ch h
    rw [List.map_cons, List.cons_append]
    by_cases hr : r.LabelsValid
    · have h2 : ¬ ∀ x ∈ pre, x.LabelsValid := by
        intro hall
        apply h
        intro x hx
        rcases List.mem_cons.mp hx with rfl | hx
        · exact hr
        · exact hall x hx
      have := ih (ch ++ rowMetrics ns r) h2
      simp only [updateLoop, updateRow_eq ns r _ hr]
      rw [List.length_append, rowMetrics_length] at this
      rw [List.length_cons]
      omega
    · obtain ⟨v, hp⟩ := updateRow_panic ns r ch hr
      simp only [updateLoop, hp, List.length_cons]
      omega

theorem Update_of_ok (c : PGClassCollector) (ns : String) (inst : Instance) (rows : Rows)
    (hq : inst.getDB.QueryContext pgClassQuery = Except.ok rows) (ch : List Metric) :
    c.Update ns inst ch = updateLoop ns rows.scans rows.err ch := by
  simp only [PGClassCollector.Update, hq]

theorem Update_of_error (c : PGClassCollector) (ns : String) (inst : Instance) (e : Error)
    (hq : inst.getDB.QueryContext pgClassQuery = Except.error e) (ch : List Metric) :
    c.Update ns inst ch = (ch, Outcome.returned (some e)) := by
  simp only [PGClassCollector.Update, hq]

theorem Update_all_ok (c : PGClassCollector) (ns : String) (inst : Instance)
    (rows : List PGClassRow) (err : Option Error)
    (hq : inst.getDB.QueryContext pgClassQuery = Except.ok ⟨rows.map Except.ok, err⟩)
    (hv : ∀ x ∈ rows, x.LabelsValid) (ch : List Metric) :
    c.Update ns inst ch = (ch ++ rows.flatMap (rowMetrics ns), Outcome.returned err) := by
  rw [Update_of_ok c ns inst _ hq]
  have h := updateLoop_ok_append ns rows [] err hv ch
  simp only [List.append_nil] at h
  simp only [h, updateLoop]

theorem Update_row_block (c : PGClassCollector) (ns : String) (inst : Instance)
    (pre : List PGClassRow) (r : PGClassRow) (rest : List (Except Error PGClassRow))
    (err : Option Error)
    (hq : inst.getDB.QueryContext pgClassQuery =
      Except.ok ⟨pre.map Except.ok ++ Except.ok r :: rest, err⟩)
    (hv : ∀ x ∈ pre, x.LabelsValid) (hr : r.LabelsValid) (ch : List Metric) :
    (c.Update ns inst ch).1 =
      (ch ++ pre.flatMap (rowMetrics ns)) ++ rowMetrics ns r ++ (updateLoop ns rest err []).1 := by
  rw [Update_of_ok c ns inst _ hq]
  simp only [updateLoop_ok_append ns pre _ err hv, updateLoop, updateRow_eq ns r _ hr]
  rw [updateLoop_fst]

theorem Update_sample_at (c : PGClassCollector) (ns : String) (inst : Instance)
    (pre : List PGClassRow) (r : PGClassRow) (rest : List (Except Error PGClassRow))
    (err : Option Error)
    (hq : inst.getDB.QueryContext pgClassQuery =
      Except.ok ⟨pre.map Except.ok ++ Except.ok r :: rest, err⟩)
    (hv : ∀ x ∈ pre, x.LabelsValid) (hr : r.LabelsValid)
    (ch : List Metric) (j : Nat) (hj : j < 8) :
    (c.Update ns inst ch).1[ch.length + 8 * pre.length + j]? = (rowMetrics ns r)[j]? := by
  rw [Update_row_block c ns inst pre r rest err hq hv hr ch]
  have hlen : (ch ++ pre.flatMap (rowMetrics ns)).length = ch.length + 8 * pre.length := by
    rw [List.length_append, flatMap_rowMetrics_length]
  rw [List.append_assoc, List.getElem?_append_right (by omega), hlen,
    List.getElem?_append_left (by rw [rowMetrics_length]; omega)]
  congr 1
  omega

theorem Update_sample_reached (c : PGClassCollector) (ns : String) (inst : Instance)
    (pre : List PGClassRow) (r : PGClassRow) (rest : List (Except Error PGClassRow))
    (err : Option Error)
    (hq : inst.getDB.QueryContext pgClassQuery =
      Except.ok ⟨pre.map Except.ok ++ Except.ok r :: rest, err⟩)
    (ch : List Metric) (j : Nat) (hj : j < 8) (m : Metric)
    (hm : (c.Update ns inst ch).1[ch.length + 8 * pre.length + j]? = some m) :
    (∀ x ∈ pre, x.LabelsValid) ∧ r.LabelsValid ∧ (rowMetrics ns r)[j]? = some m := by
  have hlt : ch.length + 8 * pre.length + j < (c.Update ns inst ch).1.length := by
    by_contra hc
    rw [List.getElem?_eq_none (by omega)] at hm
    cases hm
  have hv : ∀ x ∈ pre, x.LabelsValid := by
    by_contra hc
    have := updateLoop_stuck ns (Except.ok r :: rest) err pre ch hc
    rw [Update_of_ok c ns inst _ hq] at hlt
    simp only at hlt
    omega
  have hr : r.LabelsValid := by
    by_contra hc
    obtain ⟨v, hp⟩ := updateRow_panic ns r (ch ++ pre.flatMap (rowMetrics ns)) hc
    rw [Update_of_ok c ns inst _ hq] at hlt
    simp only [updateLoop_ok_append ns pre _ err hv, updateLoop, hp, List.length_append,
      flatMap_rowMetrics_length] at hlt
    omega
  refine ⟨hv, hr, ?_⟩
  rw [← Update_sample_at c ns inst pre r rest err hq hv hr ch j hj]
  exact hm

theorem Update_sent (c : PGClassCollector) (ns : String) (inst : Instance) (ch : List Metric) :
    ∃ rows : List PGClassRow, (∀ x ∈ rows, x.LabelsValid) ∧
      (c.Update ns inst ch).1 = ch ++ rows.flatMap (rowMetrics ns) := by
  cases h : inst.getDB.QueryContext pgClassQuery with
  | error e => exact ⟨[], by simp, by rw [Update_of_error c ns inst e h]; simp⟩
  | ok rows => rw [Update_of_ok c ns inst rows h]; exact updateLoop_sent ns rows.err rows.scans ch

theorem Update_panic_cause (c : PGClassCollector) (ns : String) (inst : Instance)
    (ch : List Metric) (cause : LabelError)
    (hp : (c.Update ns inst ch).2 = Outcome.panicked cause) :
    ∃ v, cause = LabelError.invalidUTF8 v ∧ ValidString v = false := by
  cases h : inst.getDB.QueryContext pgClassQuery with
  | error e => rw [Update_of_error c ns inst e h] at hp; simp at hp
  | ok rows =>
    rw [Update_of_ok c ns inst rows h] at hp
    exact updateLoop_panic_cause ns rows.err rows.scans ch cause hp

theorem mem_sent (c : PGClassCollector) (ns : String) (inst : Instance) (ch : List Metric)
    (m : Metric) (hm : m ∈ (c.Update ns inst ch).1.drop ch.length) :
    ∃ r : PGClassRow, r.LabelsValid ∧ m ∈ rowMetrics ns r := by
  obtain ⟨rows, hv, h⟩ := Update_sent c ns inst ch
  rw [h, List.drop_left] at hm
  obtain ⟨r, hmem, hr⟩ := List.mem_flatMap.mp hm
  exact ⟨r, hv r hmem, hr⟩

theorem Stat.index_lt (s : Stat) : s.index < 8 := by
  cases s <;> decide

theorem Stat.desc_injective (ns : String) (s t : Stat) (h : s.desc ns = t.desc ns) : s = t := by
  have hh := congrArg Desc.help h
  cases s <;> cases t <;> first | rfl | (exfalso; revert hh; simp [Stat.desc, classRelFrozenXid,
    classRelFrozenXidAge, classRelMinMxid, classRelMinMxidAge, classRelPages, classRelTuples,
    classRelNatts, classRelAllVisible, NewDesc])

theorem rowMetrics_at (ns : String) (r : PGClassRow) (s : Stat) :
    ∃ m, (rowMetrics ns r)[s.index]? = some m ∧ m.desc = s.desc ns ∧ m.valType = s.kind ∧
      m.val = (s.column r).getD Float64.zero ∧ m.labelValues = rowLabels r := by
  cases s <;> refine ⟨_, rfl, rfl, rfl, ?_, rfl⟩ <;>
    simp only [Stat.column, Stat.intColumn] <;> split <;>
    simp [rowMetrics, Stat.index, *]

theorem rowMetrics_labels (ns : String) (r : PGClassRow) (j : Nat) (m : Metric)
    (h : (rowMetrics ns r)[j]? = some m) :
    m.desc.variableLabels = ["datname", "schemaname", "relname"] ∧
      m.labelValues = rowLabels r := by
  have hj : j < 8 := by
    by_contra hc
    rw [List.getElem?_eq_none (by rw [rowMetrics_length]; omega)] at h
    cases h
  interval_cases j <;> (cases h; exact ⟨rfl, rfl⟩)

theorem isLabelOf_default (c : NullString) :
    IsLabelOf c (if c.Valid then c.String else str "unknown") := by
  unfold IsLabelOf
  cases h : c.Valid <;> simp

theorem rowMetrics_allPresent (ns : String) (r : PGClassRow) (h : r.AllPresent) :
    rowMetrics ns r = expectedSamples ns r := by
  obtain ⟨h1, h2, h3, h4, h5, h6, h7, h8, h9, h10, h11⟩ := h
  simp [rowMetrics, rowLabels, expectedSamples, h1, h2, h3, h4, h5, h6, h7, h8, h9, h10, h11]

theorem flatMap_allPresent (ns : String) (rows : List PGClassRow)
    (h : ∀ r ∈ rows, r.AllPresent) :
    rows.flatMap (rowMetrics ns) = rows.flatMap (expectedSamples ns) := by
  induction rows with
  | nil => rfl
  | cons r rows ih =>
    rw [List.flatMap_cons, List.flatMap_cons,
      rowMetrics_allPresent ns r (h r (List.mem_cons_self _ _)),
      ih (fun x hx => h x (List.mem_cons_of_mem _ hx))]

theorem toRat_hundred : (Float64.mk 0x4059000000000000).toRat? = some 100 := by
  simp [Float64.toRat?, Float64.exponent, Float64.fraction, Float64.sign]
  norm_num

theorem labelsValid_testRow : ∀ x ∈ [testRow], x.LabelsValid := by
  intro x hx
  rw [List.mem_singleton] at hx
  subst hx
  decide

theorem labelsValid_nullRow : ∀ x ∈ [nullRow], x.LabelsValid := by
  intro x hx
  rw [List.mem_singleton] at hx
  subst hx
  decide

/-! ## The claims -/

/-- C1 as stated fails: a row with all eleven columns present whose relation name
is not valid UTF-8 makes `Update` panic in its first `MustNewConstMetric` call,
with nothing sent. -/
theorem update_all_present_invalid_label :
    badRow.AllPresent ∧
    collector.Update "pg" (Instance.answering ⟨[Except.ok badRow], none⟩) [] =
      ([], Outcome.panicked (LabelError.invalidUTF8 [0x74, 0xff])) := by
  decide

/-- C1, amended: when the query succeeds, every row scans with all eleven columns
present and with valid UTF-8 in its three label columns, and iteration ends
without error, `Update` returns no error and has sent, after what the channel
held, exactly the eight expected samples of each row: rows in query order,
statistics in the fixed order, each with the column's value and the row's
(datname, schemaname, relname). -/
theorem update_all_present (c : PGClassCollector) (ns : String) (inst : Instance)
    (rows : List PGClassRow) (ch : List Metric)
    (hq : inst.getDB.QueryContext pgClassQuery = Except.ok ⟨rows.map Except.ok, none⟩)
    (hp : ∀ r ∈ rows, r.AllPresent) (hv : ∀ r ∈ rows, r.LabelsValid) :
    c.Update ns inst ch = (ch ++ rows.flatMap (expectedSamples ns), Outcome.returned none) ∧
      (rows.flatMap (expectedSamples ns)).length = 8 * rows.length := by
  rw [Update_all_ok c ns inst rows none hq hv ch, flatMap_allPresent ns rows hp]
  refine ⟨rfl, ?_⟩
  rw [← flatMap_allPresent ns rows hp]
  exact flatMap_rowMetrics_length ns rows

/-- The test row of the repository run through the amended C1: the eight samples
carry the values 1000, 1, 2000, 2, 5, 100, 17, 3, in that order. -/
theorem update_all_present_witness :
    ((Instance.answering ⟨[testRow].map Except.ok, none⟩).getDB.QueryContext pgClassQuery =
        Except.ok ⟨[testRow].map Except.ok, none⟩ ∧
      (∀ r ∈ [testRow], r.AllPresent) ∧ (∀ r ∈ [testRow], r.LabelsValid)) ∧
    (collector.Update "pg" (Instance.answering ⟨[testRow].map Except.ok, none⟩) [] =
        ([] ++ [testRow].flatMap (expectedSamples "pg"), Outcome.returned none) ∧
      ([testRow].flatMap (expectedSamples "pg")).length = 8 * [testRow].length) ∧
    ([testRow].flatMap (expectedSamples "pg")).map (fun m => m.val.toRat?) =
      [some 1000, some 1, some 2000, some 2, some 5, some 100, some 17, some 3] := by
  have hp : ∀ r ∈ [testRow], r.AllPresent := by
    intro r hr
    rw [List.mem_singleton] at hr
    subst hr
    decide
  refine ⟨⟨rfl, hp, labelsValid_testRow⟩,
    update_all_present collector "pg" _ [testRow] [] rfl hp labelsValid_testRow, ?_⟩
  have h1 := float64_toRat 1000 (by decide)
  have h2 := float64_toRat 1 (by decide)
  have h3 := float64_toRat 2000 (by decide)
  have h4 := float64_toRat 2 (by decide)
  have h5 := float64_toRat 5 (by decide)
  have h6 := float64_toRat 17 (by decide)
  have h7 := float64_toRat 3 (by decide)
  have h8 := toRat_hundred
  simp only [Int.cast_ofNat, Int.cast_one] at h1 h2 h3 h4 h5 h6 h7
  simp only [List.flatMap_cons, List.flatMap_nil, List.append_nil, expectedSamples, testRow,
    List.map_cons, List.map_nil, h1, h2, h3, h4, h5, h6, h7, h8]

/-- C2: every sample sent for a row that scans carries three label values, one per
identifying column: "unknown" when that column is absent, the column's string
when it is present, each decided by its own column alone.  The eight samples of
the row are all sent when the present label columns of the rows up to it hold
valid UTF-8. -/
theorem update_labels (c : PGClassCollector) (ns : String) (inst : Instance)
    (pre : List PGClassRow) (r : PGClassRow) (rest : List (Except Error PGClassRow))
    (err : Option Error) (ch : List Metric)
    (hq : inst.getDB.QueryContext pgClassQuery =
      Except.ok ⟨pre.map Except.ok ++ Except.ok r :: rest, err⟩)
    (j : Nat) (hj : j < 8) :
    (∀ m : Metric, (c.Update ns inst ch).1[ch.length + 8 * pre.length + j]? = some m →
      ∃ d s n : GoString, m.labelValues = [d, s, n] ∧
        (r.datname.Valid = false → d = str "unknown") ∧
        (r.datname.Valid = true → d = r.datname.String) ∧
        (r.schemaname.Valid = false → s = str "unknown") ∧
        (r.schemaname.Valid = true → s = r.schemaname.String) ∧
        (r.relname.Valid = false → n = str "unknown") ∧
        (r.relname.Valid = true → n = r.relname.String)) ∧
    ((∀ x ∈ pre, x.LabelsValid) → r.LabelsValid →
      ∃ m : Metric, (c.Update ns inst ch).1[ch.length + 8 * pre.length + j]? = some m) := by
  have hd := isLabelOf_default r.datname
  have hs := isLabelOf_default r.schemaname
  have hn := isLabelOf_default r.relname
  constructor
  · intro m hm
    obtain ⟨_, _, hrm⟩ := Update_sample_reached c ns inst pre r rest err hq ch j hj m hm
    exact ⟨_, _, _, (rowMetrics_labels ns r j m hrm).2, hd.1, hd.2, hs.1, hs.2, hn.1, hn.2⟩
  · intro hv hr
    rw [Update_sample_at c ns inst pre r rest err hq hv hr ch j hj]
    interval_cases j <;> exact ⟨_, rfl⟩

/-- The row with an absent relation name, alone in the result, run through C2: the
first sample is sent and is labelled ("postgres", "public", "unknown"). -/
theorem update_labels_witness :
    ((Instance.answering ⟨[Except.ok nullRow], none⟩).getDB.QueryContext pgClassQuery =
        Except.ok ⟨[Except.ok nullRow], none⟩ ∧ 0 < 8) ∧
    ∃ m : Metric,
      (collector.Update "pg" (Instance.answering ⟨[Except.ok nullRow], none⟩) []).1[0]? =
        some m ∧
      m.labelValues = [str "postgres", str "public", str "unknown"] := by
  have h := update_labels collector "pg" (Instance.answering ⟨[Except.ok nullRow], none⟩) []
    nullRow [] none [] rfl 0 (by decide)
  obtain ⟨m, hm⟩ := h.2 (by simp) (labelsValid_nullRow nullRow (List.mem_singleton.mpr rfl))
  obtain ⟨d, s, n, hl, _, hd, _, hs, hn, _⟩ := h.1 m hm
  refine ⟨⟨rfl, by decide⟩, m, hm, ?_⟩
  rw [hl, hd rfl, hs rfl, hn rfl]
  rfl

/-- C3 as stated fails: a scanned row with an absent page count whose relation
name is not valid UTF-8 gets no sample at all; `Update` panics on it. -/
theorem update_absent_statistic_invalid_label :
    Stat.relpages.column badNullRow = none ∧
    collector.Update "pg" (Instance.answering ⟨[Except.ok badNullRow], none⟩) [] =
      ([], Outcome.panicked (LabelError.invalidUTF8 [0x74, 0xff])) := by
  decide

/-- C3, amended: for a row that scans and is reached with valid UTF-8 in the
present label columns of every row up to it, whatever statistic columns are
absent, the call sends one sample per statistic, at the statistic's rank within
the row's block of eight: value 0.0 for an absent column, the column's value for
a present one.  The block follows the samples of the rows before it and is
followed by exactly what the rest of the cursor produces, so the row is neither
skipped nor cut short. -/
theorem update_absent_statistic (c : PGClassCollector) (ns : String) (inst : Instance)
    (pre : List PGClassRow) (r : PGClassRow) (rest : List (Except Error PGClassRow))
    (err : Option Error) (ch : List Metric)
    (hq : inst.getDB.QueryContext pgClassQuery =
      Except.ok ⟨pre.map Except.ok ++ Except.ok r :: rest, err⟩)
    (hv : ∀ x ∈ pre, x.LabelsValid) (hr : r.LabelsValid) :
    (∀ s : Stat, ∃ m : Metric,
      (c.Update ns inst ch).1[ch.length + 8 * pre.length + s.index]? = some m ∧
      m.desc = s.desc ns ∧
      (s.column r = none → m.val = Float64.zero) ∧
      (∀ v, s.column r = some v → m.val = v)) ∧
    (c.Update ns inst ch).1.take (ch.length + 8 * pre.length) =
      (c.Update ns (Instance.answering ⟨pre.map Except.ok, none⟩) ch).1 ∧
    (c.Update ns inst ch).1.drop (ch.length + 8 * pre.length + 8) =
      (c.Update ns (Instance.answering ⟨rest, err⟩) []).1 := by
  have hlen : (ch ++ pre.flatMap (rowMetrics ns)).length = ch.length + 8 * pre.length := by
    rw [List.length_append, flatMap_rowMetrics_length]
  refine ⟨?_, ?_, ?_⟩
  · intro s
    obtain ⟨m, hm, hdesc, _, hval, _⟩ := rowMetrics_at ns r s
    refine ⟨m, ?_, hdesc, ?_, ?_⟩
    · rw [Update_sample_at c ns inst pre r rest err hq hv hr ch s.index s.index_lt, hm]
    · intro h; rw [hval, h]; rfl
    · intro v h; rw [hval, h]; rfl
  · rw [Update_row_block c ns inst pre r rest err hq hv hr ch,
      Update_all_ok c ns (Instance.answering ⟨pre.map Except.ok, none⟩) pre none rfl hv ch,
      List.append_assoc, ← hlen, List.take_left]
  · rw [Update_row_block c ns inst pre r rest err hq hv hr ch,
      Update_of_ok c ns (Instance.answering ⟨rest, err⟩) ⟨rest, err⟩ rfl []]
    have hlen2 : ((ch ++ pre.flatMap (rowMetrics ns)) ++ rowMetrics ns r).length =
        ch.length + 8 * pre.length + 8 := by
      rw [List.length_append, hlen, rowMetrics_length]
    rw [← hlen2, List.drop_left]

/-- The row with an absent relation name and an absent page count, alone in the
result, run through the amended C3; its eight samples carry the values 1000, 1,
2000, 2, 0, 100, 17, 3 and the relation label "unknown". -/
theorem update_absent_statistic_witness :
    ((Instance.answering ⟨[Except.ok nullRow], none⟩).getDB.QueryContext pgClassQuery =
      Except.ok ⟨[Except.ok nullRow], none⟩ ∧
      (∀ x ∈ ([] : List PGClassRow), x.LabelsValid) ∧ nullRow.LabelsValid) ∧
    ((∀ s : Stat, ∃ m : Metric,
      (collector.Update "pg" (Instance.answering ⟨[Except.ok nullRow], none⟩) []).1[0 + 8 * 0 +
          s.index]? = some m ∧
      m.desc = s.desc "pg" ∧
      (s.column nullRow = none → m.val = Float64.zero) ∧
      (∀ v, s.column nullRow = some v → m.val = v)) ∧
    (collector.Update "pg" (Instance.answering ⟨[Except.ok nullRow], none⟩) []).1.take
        (0 + 8 * 0) =
      (collector.Update "pg" (Instance.answering ⟨[], none⟩) []).1 ∧
    (collector.Update "pg" (Instance.answering ⟨[Except.ok nullRow], none⟩) []).1.drop
        (0 + 8 * 0 + 8) =
      (collector.Update "pg" (Instance.answering ⟨[], none⟩) []).1) ∧
    (collector.Update "pg" (Instance.answering ⟨[Except.ok nullRow], none⟩) []).1.map
        (fun m => (m.val.toRat?, m.labelValues)) =
      [ (some 1000, [str "postgres", str "public", str "unknown"]),
        (some 1, [str "postgres", str "public", str "unknown"]),
        (some 2000, [str "postgres", str "public", str "unknown"]),
        (some 2, [str "postgres", str "public", str "unknown"]),
        (some 0, [str "postgres", str "public", str "unknown"]),
        (some 100, [str "postgres", str "public", str "unknown"]),
        (some 17, [str "postgres", str "public", str "unknown"]),
        (some 3, [str "postgres", str "public", str "unknown"]) ] := by
  have hn : nullRow.LabelsValid := labelsValid_nullRow nullRow (List.mem_singleton.mpr rfl)
  refine ⟨⟨rfl, by simp, hn⟩, update_absent_statistic collector "pg"
    (Instance.answering ⟨[Except.ok nullRow], none⟩) [] nullRow [] none [] rfl (by simp) hn, ?_⟩
  rw [Update_all_ok collector "pg" (Instance.answering ⟨[Except.ok nullRow], none⟩)
    [nullRow] none rfl labelsValid_nullRow []]
  have h1 := float64_toRat 1000 (by decide)
  have h2 := float64_toRat 1 (by decide)
  have h3 := float64_toRat 2000 (by decide)
  have h4 := float64_toRat 2 (by decide)
  have h5 := float64_toRat 0 (by decide)
  have h6 := float64_toRat 17 (by decide)
  have h7 := float64_toRat 3 (by decide)
  have h8 := toRat_hundred
  have h0 : float64 0 = Float64.zero := rfl
  rw [h0] at h5
  simp only [Int.cast_ofNat, Int.cast_one, Int.cast_zero] at h1 h2 h3 h4 h5 h6 h7
  simp [rowMetrics, rowLabels, nullRow, testRow, h1, h2, h3, h4, h5, h6, h7, h8]

/-- C4: whatever the database does, every sample a call sends is for one of the
eight descriptors, and its kind is the one fixed for that descriptor: counter for
`relfrozenxid` and `relminmxid`, gauge for the other six.  Distinct statistics
have distinct descriptors, so the kind is a function of the descriptor alone. -/
theorem update_kinds (c : PGClassCollector) (ns : String) (inst : Instance)
    (ch : List Metric) (m : Metric) (hm : m ∈ (c.Update ns inst ch).1.drop ch.length) :
    (∃ s : Stat, m.desc = s.desc ns) ∧
    (∀ s : Stat, m.desc = s.desc ns → m.valType = s.kind) ∧
    ((m.desc = classRelFrozenXid ns ∨ m.desc = classRelMinMxid ns) →
      m.valType = ValueType.CounterValue) ∧
    ((m.desc = classRelFrozenXidAge ns ∨ m.desc = classRelMinMxidAge ns ∨
        m.desc = classRelPages ns ∨ m.desc = classRelTuples ns ∨
        m.desc = classRelNatts ns ∨ m.desc = classRelAllVisible ns) →
      m.valType = ValueType.GaugeValue) := by
  obtain ⟨r, _, hr⟩ := mem_sent c ns inst ch m hm
  have key : ∃ t : Stat, m.desc = t.desc ns ∧ m.valType = t.kind := by
    simp only [rowMetrics, List.mem_cons, List.mem_singleton, List.not_mem_nil, or_false] at hr
    rcases hr with h | h | h | h | h | h | h | h
    · exact ⟨Stat.relfrozenxid, by rw [h]; rfl, by rw [h]; rfl⟩
    · exact ⟨Stat.relfrozenxidAge, by rw [h]; rfl, by rw [h]; rfl⟩
    · exact ⟨Stat.relminmxid, by rw [h]; rfl, by rw [h]; rfl⟩
    · exact ⟨Stat.relminmxidAge, by rw [h]; rfl, by rw [h]; rfl⟩
    · exact ⟨Stat.relpages, by rw [h]; rfl, by rw [h]; rfl⟩
    · exact ⟨Stat.reltuples, by rw [h]; rfl, by rw [h]; rfl⟩
    · exact ⟨Stat.relnatts, by rw [h]; rfl, by rw [h]; rfl⟩
    · exact ⟨Stat.relallvisible, by rw [h]; rfl, by rw [h]; rfl⟩
  obtain ⟨t, ht, hk⟩ := key
  have all : ∀ s : Stat, m.desc = s.desc ns → m.valType = s.kind := by
    intro s hs
    have : s = t := Stat.desc_injective ns s t (by rw [← hs, ht])
    rw [this, hk]
  refine ⟨⟨t, ht⟩, all, ?_, ?_⟩
  · rintro (h | h)
    · exact all Stat.relfrozenxid h
    · exact all Stat.relminmxid h
  · rintro (h | h | h | h | h | h)
    · exact all Stat.relfrozenxidAge h
    · exact all Stat.relminmxidAge h
    · exact all Stat.relpages h
    · exact all Stat.reltuples h
    · exact all Stat.relnatts h
    · exact all Stat.relallvisible h

/-- The first sample of the test run, for `relfrozenxid`, run through C4. -/
theorem update_kinds_witness :
    (⟨classRelFrozenXid "pg", ValueType.CounterValue, float64 1000,
        [str "postgres", str "public", str "table"]⟩ : Metric) ∈
      (collector.Update "pg" (Instance.answering ⟨[Except.ok testRow], none⟩) []).1.drop 0 ∧
    (⟨classRelFrozenXid "pg", ValueType.CounterValue, float64 1000,
        [str "postgres", str "public", str "table"]⟩ : Metric).valType =
      Stat.relfrozenxid.kind := by
  have hm : (⟨classRelFrozenXid "pg", ValueType.CounterValue, float64 1000,
        [str "postgres", str "public", str "table"]⟩ : Metric) ∈
      (collector.Update "pg" (Instance.answering ⟨[Except.ok testRow], none⟩) []).1.drop
        ([] : List Metric).length := by
    rw [Update_all_ok collector "pg" (Instance.answering ⟨[Except.ok testRow], none⟩)
      [testRow] none rfl labelsValid_testRow []]
    simp [rowMetrics, rowLabels, testRow]
  exact ⟨hm, (update_kinds collector "pg" _ [] _ hm).2.1 Stat.relfrozenxid rfl⟩

/-- C5: when the query call fails with `e`, `Update` returns `e` and the channel
is as it was: nothing has been sent. -/
theorem update_query_error (c : PGClassCollector) (ns : String) (inst : Instance)
    (e : Error) (ch : List Metric)
    (hq : inst.getDB.QueryContext pgClassQuery = Except.error e) :
    c.Update ns inst ch = (ch, Outcome.returned (some e)) :=
  Update_of_error c ns inst e hq ch

/-- A refused connection run through C5. -/
theorem update_query_error_witness :
    (Instance.failing ⟨"connection refused"⟩).getDB.QueryContext pgClassQuery =
      Except.error ⟨"connection refused"⟩ ∧
    collector.Update "pg" (Instance.failing ⟨"connection refused"⟩) [] =
      ([], Outcome.returned (some ⟨"connection refused"⟩)) :=
  ⟨rfl, update_query_error collector "pg" (Instance.failing ⟨"connection refused"⟩)
    ⟨"connection refused"⟩ [] rfl⟩

/-- C6 as stated fails: when the one row before the failing scan has a relation
name that is not valid UTF-8, `Update` does not return the scan error; it panics
on that row with nothing sent. -/
theorem update_scan_error_invalid_label :
    collector.Update "pg"
      (Instance.answering ⟨[Except.ok badRow, Except.error ⟨"scan"⟩], none⟩) [] =
      ([], Outcome.panicked (LabelError.invalidUTF8 [0x74, 0xff])) := by
  decide

/-- C6, amended: when the first `pre.length` rows scan with valid UTF-8 in their
present label columns and the next scan fails with `e`, whatever follows in the
cursor, `Update` returns `e`; it has sent exactly the samples of those first rows,
eight for each, which is an initial part of what any run over a result that
starts with the same rows sends. -/
theorem update_scan_error (c : PGClassCollector) (ns : String) (inst : Instance)
    (pre : List PGClassRow) (e : Error) (rest : List (Except Error PGClassRow))
    (err : Option Error) (ch : List Metric)
    (hq : inst.getDB.QueryContext pgClassQuery =
      Except.ok ⟨pre.map Except.ok ++ Except.error e :: rest, err⟩)
    (hv : ∀ x ∈ pre, x.LabelsValid) :
    (c.Update ns inst ch).2 = Outcome.returned (some e) ∧
    (c.Update ns inst ch).1 =
      (c.Update ns (Instance.answering ⟨pre.map Except.ok, none⟩) ch).1 ∧
    (c.Update ns inst ch).1.length = ch.length + 8 * pre.length ∧
    ∀ (more : List PGClassRow) (err2 : Option Error),
      (c.Update ns inst ch).1 <+:
        (c.Update ns (Instance.answering ⟨(pre ++ more).map Except.ok, err2⟩) ch).1 := by
  have h : c.Update ns inst ch =
      (ch ++ pre.flatMap (rowMetrics ns), Outcome.returned (some e)) := by
    rw [Update_of_ok c ns inst _ hq]
    simp only [updateLoop_ok_append ns pre _ err hv, updateLoop]
  rw [h]
  refine ⟨rfl, ?_, ?_, ?_⟩
  · rw [Update_all_ok c ns (Instance.answering ⟨pre.map Except.ok, none⟩) pre none rfl hv ch]
  · simp only [List.length_append, flatMap_rowMetrics_length]
  · intro more err2
    rw [Update_of_ok c ns (Instance.answering ⟨(pre ++ more).map Except.ok, err2⟩) _ rfl ch]
    simp only [List.map_append, updateLoop_ok_append ns pre _ err2 hv]
    rw [updateLoop_fst]
    exact List.prefix_append _ _

/-- A result of three rows whose second scan fails, run through the amended C6:
the call has sent the eight samples of the first row and returns the scan
error. -/
theorem update_scan_error_witness :
    ((Instance.answering
      ⟨[Except.ok testRow, Except.error ⟨"scan"⟩, Except.ok nullRow], none⟩).getDB.QueryContext
        pgClassQuery =
      Except.ok ⟨[Except.ok testRow, Except.error ⟨"scan"⟩, Except.ok nullRow], none⟩ ∧
      ∀ x ∈ [testRow], x.LabelsValid) ∧
    (collector.Update "pg" (Instance.answering
      ⟨[Except.ok testRow, Except.error ⟨"scan"⟩, Except.ok nullRow], none⟩) []).2 =
      Outcome.returned (some ⟨"scan"⟩) ∧
    (collector.Update "pg" (Instance.answering
      ⟨[Except.ok testRow, Except.error ⟨"scan"⟩, Except.ok nullRow], none⟩) []).1.length =
      8 := by
  have h := update_scan_error collector "pg" (Instance.answering
      ⟨[Except.ok testRow, Except.error ⟨"scan"⟩, Except.ok nullRow], none⟩)
      [testRow] ⟨"scan"⟩ [Except.ok nullRow] none [] rfl labelsValid_testRow
  exact ⟨⟨rfl, labelsValid_testRow⟩, h.1, h.2.2.1⟩

/-- C7 as stated fails: when the one row of the result has a relation name that
is not valid UTF-8, `Update` returns neither the end-of-iteration error nor no
error; it panics on that row with nothing sent. -/
theorem update_iteration_error_invalid_label :
    collector.Update "pg"
        (Instance.answering ⟨[Except.ok badRow], some ⟨"disconnect"⟩⟩) [] =
      ([], Outcome.panicked (LabelError.invalidUTF8 [0x74, 0xff])) ∧
    (collector.Update "pg" (Instance.answering ⟨[Except.ok badRow], none⟩) []).2 ≠
      Outcome.returned none := by
  decide

/-- C7, amended: when all rows scan with valid UTF-8 in their present label
columns, `Update` returns what `rows.Err()` holds after the last row, an error or
nothing, and in both cases it has sent the same samples, eight for each row. -/
theorem update_iteration_error (c : PGClassCollector) (ns : String) (inst : Instance)
    (rows : List PGClassRow) (err : Option Error) (ch : List Metric)
    (hq : inst.getDB.QueryContext pgClassQuery = Except.ok ⟨rows.map Except.ok, err⟩)
    (hv : ∀ x ∈ rows, x.LabelsValid) :
    (c.Update ns inst ch).2 = Outcome.returned err ∧
    (c.Update ns inst ch).1 =
      (c.Update ns (Instance.answering ⟨rows.map Except.ok, none⟩) ch).1 ∧
    (c.Update ns (Instance.answering ⟨rows.map Except.ok, none⟩) ch).2 =
      Outcome.returned none ∧
    (c.Update ns inst ch).1.length = ch.length + 8 * rows.length := by
  rw [Update_all_ok c ns inst rows err hq hv ch,
    Update_all_ok c ns (Instance.answering ⟨rows.map Except.ok, none⟩) rows none rfl hv ch]
  refine ⟨rfl, rfl, rfl, ?_⟩
  simp only [List.length_append, flatMap_rowMetrics_length]

/-- Two rows followed by a late disconnect, run through the amended C7: sixteen
samples sent, the disconnect returned. -/
theorem update_iteration_error_witness :
    ((Instance.answering
      ⟨[testRow, nullRow].map Except.ok, some ⟨"disconnect"⟩⟩).getDB.QueryContext pgClassQuery =
      Except.ok ⟨[testRow, nullRow].map Except.ok, some ⟨"disconnect"⟩⟩ ∧
      ∀ x ∈ [testRow, nullRow], x.LabelsValid) ∧
    (collector.Update "pg" (Instance.answering
      ⟨[testRow, nullRow].map Except.ok, some ⟨"disconnect"⟩⟩) []).2 =
      Outcome.returned (some ⟨"disconnect"⟩) ∧
    (collector.Update "pg" (Instance.answering
      ⟨[testRow, nullRow].map Except.ok, some ⟨"disconnect"⟩⟩) []).1.length = 16 := by
  have hv : ∀ x ∈ [testRow, nullRow], x.LabelsValid := by
    intro x hx
    rcases List.mem_cons.mp hx with rfl | hx
    · decide
    · exact labelsValid_nullRow x hx
  have h := update_iteration_error collector "pg" (Instance.answering
      ⟨[testRow, nullRow].map Except.ok, some ⟨"disconnect"⟩⟩) [testRow, nullRow]
      (some ⟨"disconnect"⟩) [] rfl hv
  exact ⟨⟨rfl, hv⟩, h.1, h.2.2.2⟩

/-- C8: whatever the database does, the label-count check never makes a
`MustNewConstMetric` call of `Update` panic (a panic of `Update` is always about
a label value that is not valid UTF-8), and every sample sent carries as many
label values as its descriptor declares label names, which are (datname,
schemaname, relname).  For a row that scans, the three values of each sample sent
for it are, in that order, the labels of its datname, schemaname and relname
columns, and its eight samples are all sent when the present label columns of the
rows up to it hold valid UTF-8. -/
theorem update_label_cardinality (c : PGClassCollector) (ns : String) (inst : Instance)
    (ch : List Metric) :
    (c.Update ns inst ch).2 ≠ Outcome.panicked LabelError.inconsistentCardinality ∧
    (∀ cause, (c.Update ns inst ch).2 = Outcome.panicked cause →
      ∃ v, cause = LabelError.invalidUTF8 v ∧ ValidString v = false) ∧
    (∀ m ∈ (c.Update ns inst ch).1.drop ch.length,
      m.desc.variableLabels = ["datname", "schemaname", "relname"] ∧
      m.labelValues.length = m.desc.variableLabels.length ∧
      MustNewConstMetric m.desc m.valType m.val m.labelValues = Except.ok m) ∧
    (∀ (pre : List PGClassRow) (r : PGClassRow) (rest : List (Except Error PGClassRow))
        (err : Option Error) (j : Nat),
      inst.getDB.QueryContext pgClassQuery =
        Except.ok ⟨pre.map Except.ok ++ Except.ok r :: rest, err⟩ →
      j < 8 →
      (∀ m : Metric, (c.Update ns inst ch).1[ch.length + 8 * pre.length + j]? = some m →
        ∃ d s n : GoString,
          m.desc.variableLabels.zip m.labelValues =
            [("datname", d), ("schemaname", s), ("relname", n)] ∧
          IsLabelOf r.datname d ∧ IsLabelOf r.schemaname s ∧ IsLabelOf r.relname n) ∧
      ((∀ x ∈ pre, x.LabelsValid) → r.LabelsValid →
        ∃ m : Metric,
          (c.Update ns inst ch).1[ch.length + 8 * pre.length + j]? = some m)) := by
  refine ⟨?_, Update_panic_cause c ns inst ch, ?_, ?_⟩
  · intro h
    obtain ⟨v, hv, _⟩ := Update_panic_cause c ns inst ch _ h
    cases hv
  · intro m hm
    obtain ⟨r, hvalid, hr⟩ := mem_sent c ns inst ch m hm
    obtain ⟨j, hj⟩ := List.getElem?_of_mem hr
    obtain ⟨hnames, hlabels⟩ := rowMetrics_labels ns r j m hj
    refine ⟨hnames, by rw [hnames, hlabels]; rfl, ?_⟩
    have hcls := MustNewConstMetric_class m.desc m.valType m.val r (by rw [hnames]; rfl)
    rcases find_rowLabels r with ⟨_, hf⟩ | ⟨hn, _⟩
    · rw [hlabels, hcls, hf, ← hlabels]
    · exact absurd hvalid hn
  · intro pre r rest err j hq hj
    constructor
    · intro m hm
      obtain ⟨_, _, hrm⟩ := Update_sample_reached c ns inst pre r rest err hq ch j hj m hm
      obtain ⟨hnames, hlabels⟩ := rowMetrics_labels ns r j m hrm
      refine ⟨_, _, _, ?_, isLabelOf_default r.datname, isLabelOf_default r.schemaname,
        isLabelOf_default r.relname⟩
      rw [hnames, hlabels]
      rfl
    · intro hv hr
      rw [Update_sample_at c ns inst pre r rest err hq hv hr ch j hj]
      interval_cases j <;> exact ⟨_, rfl⟩

/-- C9 as stated fails: a present but empty database name reaches the samples as
it is, and the eight samples of such a row carry the empty string as their first
label value. -/
theorem update_empty_label :
    (collector.Update "pg" (Instance.answering ⟨[Except.ok blankRow], none⟩) []).1.map
        Metric.labelValues =
      List.replicate 8 [[], str "public", str "table"] := by
  decide

/-- C9, amended: each of the three label values of every sample sent for a row
that scans is "unknown" when its column is absent and the column's string when
it is present; so a label value is non-empty exactly when its column is absent or
holds a non-empty string.  The eight samples of the row are all sent when the
present label columns of the rows up to it hold valid UTF-8. -/
theorem update_labels_nonempty (c : PGClassCollector) (ns : String) (inst : Instance)
    (pre : List PGClassRow) (r : PGClassRow) (rest : List (Except Error PGClassRow))
    (err : Option Error) (ch : List Metric)
    (hq : inst.getDB.QueryContext pgClassQuery =
      Except.ok ⟨pre.map Except.ok ++ Except.ok r :: rest, err⟩)
    (j : Nat) (hj : j < 8) :
    (∀ m : Metric, (c.Update ns inst ch).1[ch.length + 8 * pre.length + j]? = some m →
      ∃ d s n : GoString, m.labelValues = [d, s, n] ∧
        IsLabelOf r.datname d ∧ IsLabelOf r.schemaname s ∧ IsLabelOf r.relname n ∧
        (d ≠ [] ↔ (r.datname.Valid = false ∨ r.datname.String ≠ [])) ∧
        (s ≠ [] ↔ (r.schemaname.Valid = false ∨ r.schemaname.String ≠ [])) ∧
        (n ≠ [] ↔ (r.relname.Valid = false ∨ r.relname.String ≠ []))) ∧
    ((∀ x ∈ pre, x.LabelsValid) → r.LabelsValid →
      ∃ m : Metric, (c.Update ns inst ch).1[ch.length + 8 * pre.length + j]? = some m) := by
  have key : ∀ col : NullString,
      ((if col.Valid then col.String else str "unknown") ≠ [] ↔
        (col.Valid = false ∨ col.String ≠ [])) := by
    intro col
    have hu : str "unknown" ≠ [] := by decide
    cases hv : col.Valid
    · simp [hu]
    · simp
  constructor
  · intro m hm
    obtain ⟨_, _, hrm⟩ := Update_sample_reached c ns inst pre r rest err hq ch j hj m hm
    exact ⟨_, _, _, (rowMetrics_labels ns r j m hrm).2, isLabelOf_default r.datname,
      isLabelOf_default r.schemaname, isLabelOf_default r.relname, key r.datname,
      key r.schemaname, key r.relname⟩
  · intro hv hr
    rw [Update_sample_at c ns inst pre r rest err hq hv hr ch j hj]
    interval_cases j <;> exact ⟨_, rfl⟩

/-- The row with a present but empty database name run through the amended C9:
its last sample is sent; its database label is empty, the other two are not. -/
theorem update_labels_nonempty_witness :
    ((Instance.answering ⟨[Except.ok blankRow], none⟩).getDB.QueryContext pgClassQuery =
        Except.ok ⟨[Except.ok blankRow], none⟩ ∧ 7 < 8) ∧
    ∃ (m : Metric) (d s n : GoString),
      (collector.Update "pg" (Instance.answering ⟨[Except.ok blankRow], none⟩) []).1[7]? =
        some m ∧
      m.labelValues = [d, s, n] ∧ d = [] ∧ s ≠ [] ∧ n ≠ [] := by
  have h := update_labels_nonempty collector "pg"
    (Instance.answering ⟨[Except.ok blankRow], none⟩) [] blankRow [] none [] rfl 7 (by decide)
  obtain ⟨m, hm⟩ := h.2 (by simp) (by decide)
  obtain ⟨d, s, n, hl, hd, _, _, _, hs, hn⟩ := h.1 m hm
  refine ⟨⟨rfl, by decide⟩, m, d, s, n, hm, hl, hd.2 rfl, hs.mpr (Or.inr ?_), hn.mpr (Or.inr ?_)⟩
  · decide
  · decide

/-- C10: for a row that scans with its integers in the range of their Go types,
every sample sent for a present integer statistic has as value the double
`float64` gives the scanned integer; that double stands for exactly the integer,
and for no other 32-bit integer.  The sample is sent when the present label
columns of the rows up to this one hold valid UTF-8. -/
theorem update_integer_exact (c : PGClassCollector) (ns : String) (inst : Instance)
    (pre : List PGClassRow) (r : PGClassRow) (rest : List (Except Error PGClassRow))
    (err : Option Error) (ch : List Metric)
    (hq : inst.getDB.QueryContext pgClassQuery =
      Except.ok ⟨pre.map Except.ok ++ Except.ok r :: rest, err⟩)
    (hr : r.InRange) (s : Stat) (n : Int) (hn : s.intColumn r = some n) :
    (∀ m : Metric,
      (c.Update ns inst ch).1[ch.length + 8 * pre.length + s.index]? = some m →
      m.val = float64 n ∧
      m.val.toRat? = some (n : ℚ) ∧
      ∀ k : Int, -(2 : Int) ^ 31 ≤ k → k < 2 ^ 31 → k ≠ n → float64 k ≠ m.val) ∧
    ((∀ x ∈ pre, x.LabelsValid) → r.LabelsValid →
      ∃ m : Metric,
        (c.Update ns inst ch).1[ch.length + 8 * pre.length + s.index]? = some m) := by
  obtain ⟨m0, hm0, _, _, hval, _⟩ := rowMetrics_at ns r s
  have hcol : s.column r = some (float64 n) := by
    cases s <;> simp_all [Stat.column, Stat.intColumn]
  have hbound : -(2 : Int) ^ 31 ≤ n ∧ n < 2 ^ 31 := by
    obtain ⟨h1, h2, h3, h4, h5, h6, h7⟩ := hr
    cases s <;> simp only [Stat.intColumn] at hn <;>
      first
        | cases hn
        | (split at hn <;>
            first
              | (cases hn; assumption)
              | (cases hn; constructor <;> omega)
              | cases hn)
  have hsmall : ∀ k : Int, -(2 : Int) ^ 31 ≤ k → k < 2 ^ 31 → k.natAbs < 2 ^ 53 := by
    intro k h1 h2; omega
  have hv0 : m0.val = float64 n := by rw [hval, hcol]; rfl
  constructor
  · intro m hm
    obtain ⟨_, _, hrm⟩ :=
      Update_sample_reached c ns inst pre r rest err hq ch s.index s.index_lt m hm
    have hmm : m = m0 := by
      rw [hm0] at hrm
      exact (Option.some.inj hrm).symm
    subst hmm
    refine ⟨hv0, ?_, ?_⟩
    · rw [hv0]; exact float64_toRat n (hsmall n hbound.1 hbound.2)
    · intro k hk1 hk2 hne heq
      rw [hv0] at heq
      exact hne (float64_injective k n (hsmall k hk1 hk2) (hsmall n hbound.1 hbound.2) heq)
  · intro hv hlv
    exact ⟨m0, by
      rw [Update_sample_at c ns inst pre r rest err hq hv hlv ch s.index s.index_lt, hm0]⟩

/-- The column count 17 of the test row run through C10: the seventh sample is
sent and its value stands for 17. -/
theorem update_integer_exact_witness :
    ((Instance.answering ⟨[Except.ok testRow], none⟩).getDB.QueryContext pgClassQuery =
        Except.ok ⟨[Except.ok testRow], none⟩ ∧
      testRow.InRange ∧ Stat.relnatts.intColumn testRow = some 17) ∧
    ∃ m : Metric,
      (collector.Update "pg" (Instance.answering ⟨[Except.ok testRow], none⟩) []).1[6]? =
        some m ∧
      m.val = float64 17 ∧
      m.val.toRat? = some ((17 : Int) : ℚ) ∧
      ∀ k : Int, -(2 : Int) ^ 31 ≤ k → k < 2 ^ 31 → k ≠ 17 → float64 k ≠ m.val := by
  have h := update_integer_exact collector "pg"
    (Instance.answering ⟨[Except.ok testRow], none⟩) [] testRow [] none [] rfl (by decide)
    Stat.relnatts 17 rfl
  obtain ⟨m, hm⟩ := h.2 (by simp) (labelsValid_testRow testRow (List.mem_singleton.mpr rfl))
  exact ⟨⟨rfl, by decide, rfl⟩, m, hm, h.1 m hm⟩

end PgClass
